import Mathlib

/-!  Verification of the tinygit object store against its specification.

The development shallowly embeds the C++ sources:
  * `src/myrepo/tinygit.cpp`  — hand-rolled SHA-1, streaming zlib ("v1" below);
  * `src/unnamed/part_000`    — OpenSSL SHA-1, one-shot zlib (first program and
    the "combined" program; both share the encoding and path logic, "v2" below).

Bytes are `Nat` values (the C++ code manipulates `std::string` / `uint8_t`
buffers); machine arithmetic is `Nat` with explicit `% 2^32` / `% 2^64` where
the C++ types wrap.  The filesystem is a map from path strings to byte lists.
-/

set_option maxRecDepth 100000

namespace TinyGit

/-! ## Byte strings and C++ string primitives -/

/-- Bytes of an ASCII string, as the C++ code sees `std::string` contents. -/
def strBytes (s : String) : List Nat := s.data.map Char.toNat

/-- Model of `s.substr(0, n)` (never throws for `pos = 0`). -/
def strTake (s : String) (n : Nat) : String := String.mk (s.data.take n)

/-- Model of `s.substr(n)` on the success path (see `cppSubstrFrom`). -/
def strDrop (s : String) (n : Nat) : String := String.mk (s.data.drop n)

/-- Model of `s.substr(pos)`: C++ throws `std::out_of_range` when
`pos > s.size()`; `none` models the throw. -/
def cppSubstrFrom (s : String) (pos : Nat) : Option String :=
  if pos ≤ s.data.length then some (String.mk (s.data.drop pos)) else none

/-- Most-significant-first decimal digits, by structural recursion on a fuel
bound (`n` itself bounds the number of divisions by 10). -/
def decReprAux : Nat → Nat → List Char
  | 0, _ => []
  | fuel + 1, n =>
    if n = 0 then [] else decReprAux fuel (n / 10) ++ [Char.ofNat (48 + n % 10)]

/-- Decimal representation of a natural number as characters, the output of
`std::to_string` (no sign, no leading zeros, `"0"` for zero). -/
def decRepr (n : Nat) : List Char :=
  if n = 0 then ['0'] else decReprAux n n

/-- Decimal representation as ASCII bytes. -/
def decDigits (n : Nat) : List Nat := (decRepr n).map Char.toNat

/-! ## SHA-1, translated from `sha1` in `src/myrepo/tinygit.cpp`
(lines 15-103).  All 32-bit arithmetic is `Nat` reduced `% 2^32`. -/

/-- Truncation to `uint32_t`. -/
def u32 (n : Nat) : Nat := n % 4294967296

/-- `(w << 1) | (w >> 31)` on `uint32_t`. -/
def rotl1 (w : Nat) : Nat := ((w <<< 1) % 4294967296) ||| (w >>> 31)

/-- `(a << 5) | (a >> 27)` on `uint32_t`. -/
def rotl5 (a : Nat) : Nat := ((a <<< 5) % 4294967296) ||| (a >>> 27)

/-- `(b << 30) | (b >> 2)` on `uint32_t`. -/
def rotl30 (b : Nat) : Nat := ((b <<< 30) % 4294967296) ||| (b >>> 2)

/-- SHA-1 preprocessing: the input bytes (each reduced `% 256`, as the C++
`char` to `uint8_t` conversion does), then `0x80`, then zero bytes until the
length is 56 mod 64, then the original bit length as 8 big-endian bytes. -/
def sha1Pad (data : List Nat) : List Nat :=
  let bytes := data.map (fun b => b % 256)
  let withOne := bytes ++ [0x80]
  let zeros := (56 + 64 - withOne.length % 64) % 64
  let padded := withOne ++ List.replicate zeros 0
  let bitLen := data.length * 8 % 18446744073709551616
  padded ++ (List.range 8).map (fun i => bitLen / 2 ^ ((7 - i) * 8) % 256)

/-- Fuel-driven splitting into 64-byte chunks; the fuel (the list length in
`toBlocks`) bounds the number of chunks, so recursion is structural. -/
def toBlocksAux : Nat → List Nat → List (List Nat)
  | 0, _ => []
  | fuel + 1, l => if l = [] then [] else l.take 64 :: toBlocksAux fuel (l.drop 64)

/-- Split the padded message into 64-byte blocks. -/
def toBlocks (l : List Nat) : List (List Nat) := toBlocksAux l.length l

/-- Pack a 64-byte block into 16 big-endian 32-bit words
(`w[i] |= padded[offset + i*4 + j] << (24 - j*8)`). -/
def packWords (block : List Nat) : List Nat :=
  (List.range 16).map (fun i =>
    (block.getD (4 * i) 0) <<< 24 ||| (block.getD (4 * i + 1) 0) <<< 16 |||
    (block.getD (4 * i + 2) 0) <<< 8 ||| block.getD (4 * i + 3) 0)

/-- One extension step appended `fuel` times:
`w[i] = rotl1 (w[i-3] ^ w[i-8] ^ w[i-14] ^ w[i-16])` at `i = w.length`. -/
def extendWordsAux : Nat → List Nat → List Nat
  | 0, w => w
  | fuel + 1, w =>
    let i := w.length
    extendWordsAux fuel (w ++ [rotl1 ((w.getD (i - 3) 0) ^^^ (w.getD (i - 8) 0) ^^^
                                      (w.getD (i - 14) 0) ^^^ (w.getD (i - 16) 0))])

/-- Extend the 16 packed words to 80 (the `for (i = 16; i < 80; i++)` loop). -/
def extendWords (w : List Nat) : List Nat := extendWordsAux (80 - w.length) w

/-- Round function `f` of the main loop. -/
def sha1F (i b c d : Nat) : Nat :=
  if i < 20 then (b &&& c) ||| ((4294967295 ^^^ b) &&& d)
  else if i < 40 then b ^^^ c ^^^ d
  else if i < 60 then (b &&& c) ||| (b &&& d) ||| (c &&& d)
  else b ^^^ c ^^^ d

/-- Round constant `k` of the main loop. -/
def sha1K (i : Nat) : Nat :=
  if i < 20 then 0x5A827999
  else if i < 40 then 0x6ED9EBA1
  else if i < 60 then 0x8F1BBCDC
  else 0xCA62C1D6

/-- One round of the main loop on the state `(a, b, c, d, e)`. -/
def sha1Round (w : List Nat) (st : Nat × Nat × Nat × Nat × Nat) (i : Nat) :
    Nat × Nat × Nat × Nat × Nat :=
  match st with
  | (a, b, c, d, e) =>
    let temp := u32 (rotl5 a + sha1F i b c d + e + sha1K i + w.getD i 0)
    (temp, a, rotl30 b, c, d)

/-- Process one 64-byte block, adding the result into the running hash. -/
def processBlock (h : Nat × Nat × Nat × Nat × Nat) (block : List Nat) :
    Nat × Nat × Nat × Nat × Nat :=
  let w := extendWords (packWords block)
  match h, (List.range 80).foldl (sha1Round w) h with
  | (h0, h1, h2, h3, h4), (a, b, c, d, e) =>
    (u32 (h0 + a), u32 (h1 + b), u32 (h2 + c), u32 (h3 + d), u32 (h4 + e))

/-- The five 32-bit state words of SHA-1 over the given bytes. -/
def sha1Core (data : List Nat) : Nat × Nat × Nat × Nat × Nat :=
  (toBlocks (sha1Pad data)).foldl processBlock
    (0x67452301, 0xEFCDAB89, 0x98BADCFE, 0x10325476, 0xC3D2E1F0)

/-- The sixteen lowercase hexadecimal digit characters. -/
def hexDigitChars : List Char := "0123456789abcdef".data

/-- Lowercase hexadecimal digit of `n % 16`. -/
def hexChar (n : Nat) : Char := hexDigitChars.getD (n % 16) '0'

/-- Two hex characters of one byte (`setw(2) << setfill('0') << hex`). -/
def hexByte (n : Nat) : List Char := [hexChar (n / 16), hexChar n]

/-- Eight hex characters of one 32-bit word (`setw(8) << setfill('0') << hex`). -/
def hexWord32 (n : Nat) : List Char :=
  [hexChar (n / 16 ^ 7), hexChar (n / 16 ^ 6), hexChar (n / 16 ^ 5),
   hexChar (n / 16 ^ 4), hexChar (n / 16 ^ 3), hexChar (n / 16 ^ 2),
   hexChar (n / 16), hexChar n]

/-- `sha1` from `src/myrepo/tinygit.cpp`: the five state words rendered as
five 8-digit lowercase hex fields. -/
def sha1 (data : List Nat) : List Char :=
  match sha1Core data with
  | (h0, h1, h2, h3, h4) =>
    hexWord32 h0 ++ hexWord32 h1 ++ hexWord32 h2 ++ hexWord32 h3 ++ hexWord32 h4

/-- Big-endian bytes of a 32-bit word. -/
def word32BytesBE (n : Nat) : List Nat :=
  [n / 2 ^ 24 % 256, n / 2 ^ 16 % 256, n / 2 ^ 8 % 256, n % 256]

/-- Modelled from the spec: the OpenSSL `SHA1` call in `src/unnamed/part_000`
is external library code; per the spec's Hasher contract it returns the
20-byte FIPS 180-1 digest, which is the big-endian byte sequence of the five
state words. -/
def sha1DigestBytes (data : List Nat) : List Nat :=
  match sha1Core data with
  | (h0, h1, h2, h3, h4) =>
    word32BytesBE h0 ++ word32BytesBE h1 ++ word32BytesBE h2 ++
    word32BytesBE h3 ++ word32BytesBE h4

/-- `sha1` from `src/unnamed/part_000` (lines 23-30): each digest byte
rendered as two lowercase hex characters. -/
def sha1Openssl (data : List Nat) : List Char :=
  ((sha1DigestBytes data).map hexByte).flatten

/-! ## zlib model

zlib is an external library; per the rules its behaviour is modelled from the
spec (§4.2): `compress` and `decompress` are mutual inverses on every byte
sequence, and a one-shot `uncompress` into a too-small destination buffer
reports `Z_BUF_ERROR` instead of truncating.  Only well-formed compressed
streams (the ones the store itself writes) are modelled. -/

/-- Modelled from the spec: zlib compression (`deflate` loop in
`src/myrepo/tinygit.cpp`, one-shot `compress` in `src/unnamed/part_000`).
The spec constrains it only to be invertible by decompression, so the model
is the simplest invertible transform. -/
def zlibCompress (x : List Nat) : List Nat := x

/-- Modelled from the spec: full zlib decompression of a well-formed stream
(the streaming `inflate` loop of `src/myrepo/tinygit.cpp` accumulates exactly
these bytes). -/
def zlibDecode (src : List Nat) : List Nat := src

/-- Result of the one-shot `uncompress` calls in `src/unnamed/part_000`. -/
inductive ZResult where
  | ok (out : List Nat) : ZResult
  | bufError : ZResult
  | hang : ZResult
deriving DecidableEq

/-- Modelled from the spec: one-shot `uncompress(dest, &destLen, src, len)`:
`Z_BUF_ERROR` when the destination capacity is below the decompressed size,
otherwise `Z_OK` with the full output. -/
def zlibUncompress (destCap : Nat) (src : List Nat) : ZResult :=
  if (zlibDecode src).length ≤ destCap then ZResult.ok (zlibDecode src)
  else ZResult.bufError

/-- One iteration of the grow-and-retry loop, with a structural fuel bound;
exhausted fuel (`hang`) models non-termination of the C++ loop, which can
only happen when the buffer size is 0 (doubling 0 stays 0) — see
`growRetryAux_ok`. -/
def growRetryAux : Nat → List Nat → Nat → ZResult
  | 0, _, _ => ZResult.hang
  | fuel + 1, src, size =>
    if (zlibDecode src).length ≤ size then ZResult.ok (zlibDecode src)
    else growRetryAux fuel src (size * 2)

/-- The grow-and-retry decompression loop of `read_object` in
`src/unnamed/part_000` (lines 58-67 and 213-222): call `uncompress` with the
current buffer size and double the size while it reports `Z_BUF_ERROR`.  The
branch condition inlines `zlibUncompress`; each doubling at a positive size
grows the buffer by at least one byte, so `length + 1` rounds of fuel are
provably enough for every positive starting size. -/
def growRetry (src : List Nat) (size : Nat) : ZResult :=
  growRetryAux ((zlibDecode src).length + 1) src size

/-! ## Object store -/

/-- The filesystem: a map from paths to raw file bytes. -/
abbrev FS : Type := String → Option (List Nat)

/-- No files. -/
def emptyFS : FS := fun _ => none

/-- Writing a file truncates and replaces its content. -/
def fsWrite (fs : FS) (path : String) (content : List Nat) : FS :=
  fun p => if p = path then some content else fs p

/-- The byte sequence hashed and stored by `write_object` in
`src/myrepo/tinygit.cpp` (lines 107-110): `type + " " + std::to_string(size)
+ "\0"` concatenates the C string literal `"\0"`, which is empty, so no NUL
byte separates the header from the data. -/
def storeV1 (data kind : List Nat) : List Nat :=
  (kind ++ [32] ++ decDigits data.length) ++ data

/-- The byte sequence hashed and stored by `write_object` in
`src/unnamed/part_000` (line 33): `type + " " + std::to_string(size) + '\0' +
data`, with a real NUL byte after the header. -/
def storeV2 (data kind : List Nat) : List Nat :=
  kind ++ [32] ++ decDigits data.length ++ [0] ++ data

/-- Shard directory from `write_object` in `src/myrepo/tinygit.cpp`
(line 116): `".tinygit/objects/" + sha.substr(0, 2)`. -/
def writeDir (sha : String) : String := ".tinygit/objects/" ++ strTake sha 2

/-- Shard file path from `write_object` in `src/myrepo/tinygit.cpp`
(line 117): `dir + "/" + sha.substr(2)`. -/
def writeFile (sha : String) : String := writeDir sha ++ "/" ++ strDrop sha 2

/-- Shard file path from `read_object` in `src/myrepo/tinygit.cpp`
(line 150): `".tinygit/objects/" + sha.substr(0, 2) + "/" + sha.substr(2)`. -/
def readFile (sha : String) : String :=
  ".tinygit/objects/" ++ strTake sha 2 ++ "/" ++ strDrop sha 2

/-- `write_object` from `src/myrepo/tinygit.cpp` (lines 107-144): build the
header without the intended NUL (see `storeV1`), hash it, compress it, store
it at the sharded path derived from the hash. -/
def writeObjectV1 (fs : FS) (data kind : List Nat) : String × FS :=
  let store := storeV1 data kind
  let sha := String.mk (sha1 store)
  (sha, fsWrite fs (writeFile sha) (zlibCompress store))

/-- `std::string::npos`, a `size_t`. -/
def NPOS : Nat := 18446744073709551615

/-- `read_object` from `src/myrepo/tinygit.cpp` (lines 148-176): resolve the
sharded path (`none` models the uncaught `std::out_of_range` from
`sha.substr(2)` when `sha` is shorter than 2), read the file (a missing file
yields an empty byte sequence through the failed stream), decompress, then
`result.substr(null_pos + 1)` where `null_pos` is `find('\0')` — `npos + 1`
wraps to 0 on `size_t`, returning the whole decompressed text. -/
def readObjectV1 (fs : FS) (sha : String) : Option (List Nat) :=
  match cppSubstrFrom sha 2 with
  | none => none
  | some rest =>
    let file := ".tinygit/objects/" ++ strTake sha 2 ++ "/" ++ rest
    let compressed := (fs file).getD []
    let result := zlibDecode compressed
    let nullPos := match result.findIdx? (fun b => b == 0) with
      | some i => i
      | none => NPOS
    some (result.drop ((nullPos + 1) % 18446744073709551616))

/-- `write_object` from `src/unnamed/part_000` (lines 32-47 and 173-194):
build the NUL-separated encoding, hash it with the OpenSSL `sha1`, compress,
store at the sharded path. -/
def writeObjectV2 (fs : FS) (data kind : List Nat) : String × FS :=
  let store := storeV2 data kind
  let sha := String.mk (sha1Openssl store)
  (sha, fsWrite fs (readFile sha) (zlibCompress store))

/-- `read_object` from `src/unnamed/part_000` (lines 201-238, equivalently
49-78 up to the initial buffer guess): return `""` when the file is absent;
otherwise decompress through the grow-and-retry loop starting at five times
the compressed size, and return `""` when decompression fails or when the
decompressed bytes contain no NUL, else everything after the first NUL.
`none` models the `std::out_of_range` throw from `sha.substr(2)`. -/
def readObjectV2 (fs : FS) (sha : String) : Option (List Nat) :=
  match cppSubstrFrom sha 2 with
  | none => none
  | some rest =>
    let file := ".tinygit/objects/" ++ strTake sha 2 ++ "/" ++ rest
    match fs file with
    | none => some []
    | some compressed =>
      match growRetry compressed (compressed.length * 5) with
      | ZResult.ok store =>
        match store.findIdx? (fun b => b == 0) with
        | none => some []
        | some i => some (store.drop (i + 1))
      | _ => some []

/-! ## Reference store and commands -/

/-- The six whitespace characters `operator>>` skips and stops at. -/
def isSpaceChar (c : Char) : Bool :=
  c == ' ' || c == '\t' || c == '\n' || c == '\x0b' || c == '\x0c' || c == '\r'

/-- `head >> sha` on the content of a text file: skip leading whitespace,
take the maximal whitespace-free token; extraction fails on an empty token. -/
def extractToken (s : String) : Option String :=
  let rest := s.data.dropWhile isSpaceChar
  let tok := rest.takeWhile (fun c => !(isSpaceChar c))
  if tok.isEmpty then none else some (String.mk tok)

/-- Content of `.tinygit/refs/heads/master` (`none` when the file has never
been written). -/
abbrev MasterRef : Type := Option String

/-- The branch update in the commit branch of `main`
(`std::ofstream(".tinygit/refs/heads/master") << sha << "\n"`): an
unconditional overwrite. -/
def updateMaster (_r : MasterRef) (sha : String) : MasterRef :=
  some (sha ++ "\n")

/-- Errors signalled by reference resolution. -/
inductive RefErr where
  | noCommits : RefErr
deriving DecidableEq

/-- Reference resolution in the log branch of the combined `main` in
`src/unnamed/part_000` (lines 289-298): open the ref file and extract one
token; when the file is absent or extraction fails, the program takes the
`fatal: no commits yet` branch. -/
def resolveMaster (r : MasterRef) : Except RefErr String :=
  match r with
  | none => Except.error RefErr.noCommits
  | some content =>
    match extractToken content with
    | none => Except.error RefErr.noCommits
    | some tok => Except.ok tok

/-- The log branch of `main` in `src/myrepo/tinygit.cpp` (lines 209-213):
`sha` stays the empty string when extraction fails, and `read_object` is
called unconditionally. -/
def logV1 (fs : FS) (r : MasterRef) : Option (List Nat) :=
  let sha := ((r.bind extractToken).getD "")
  readObjectV1 fs sha

/-- The commit payload assembled in the commit branch of `main`
(`src/myrepo/tinygit.cpp` lines 198-202, `src/unnamed/part_000` lines
100-104), one list segment per `<<` operand. -/
def commitPayload (t : Nat) (msg : List Char) : List Char :=
  "tree ".data ++ "dummy_sha\n".data ++
  "author me <me@example.com> ".data ++ decRepr t ++ " +0000\n".data ++
  "committer me <me@example.com> ".data ++ decRepr t ++ " +0000\n\n".data ++
  msg ++ "\n".data

/-- Modelled from the spec: `build_commit(message, tree_id, identity,
timestamp)` (§4.5, §3) — the parametrised Commit Builder is not a separate
function in the source, which inlines it with a fixed tree id and identity. -/
def buildCommit (msg treeId identity : List Char) (t : Nat) (tz : List Char) :
    List Char :=
  "tree ".data ++ treeId ++ "\n".data ++
  "author ".data ++ identity ++ " ".data ++ decRepr t ++ " ".data ++ tz ++ "\n".data ++
  "committer ".data ++ identity ++ " ".data ++ decRepr t ++ " ".data ++ tz ++ "\n".data ++
  "\n".data ++ msg ++ "\n".data

/-- The characters following the first blank line (`"\n\n"`), if any. -/
def afterBlankLine : List Char → Option (List Char)
  | [] => none
  | '\n' :: '\n' :: rest => some rest
  | _ :: rest => afterBlankLine rest

/-- The message line of a commit payload: the first line after the first
blank line. -/
def messageLine (payload : List Char) : Option (List Char) :=
  (afterBlankLine payload).map (fun r => r.takeWhile (fun c => c ≠ '\n'))

/-! ## Helper lemmas -/

theorem strMk_append (l1 l2 : List Char) :
    String.mk l1 ++ String.mk l2 = String.mk (l1 ++ l2) := rfl

theorem growRetryAux_ok :
    ∀ (fuel : Nat) (src : List Nat) (size : Nat), 0 < size →
      (zlibDecode src).length ≤ size + fuel →
      growRetryAux (fuel + 1) src size = ZResult.ok (zlibDecode src) := by
  intro fuel
  induction fuel with
  | zero =>
    intro src size hpos hle
    simp only [growRetryAux]
    rw [if_pos (by omega)]
  | succ n ih =>
    intro src size hpos hle
    simp only [growRetryAux]
    by_cases hc : (zlibDecode src).length ≤ size
    · rw [if_pos hc]
    · rw [if_neg hc]
      exact ih src (size * 2) (by omega) (by omega)

theorem takeWhile_token (l : List Char) (h : ∀ c ∈ l, isSpaceChar c = false) :
    (l ++ ['\n']).takeWhile (fun c => !(isSpaceChar c)) = l := by
  induction l with
  | nil => decide
  | cons a l ih =>
    have ha : isSpaceChar a = false := h a (List.mem_cons_self a l)
    have hl : ∀ c ∈ l, isSpaceChar c = false :=
      fun c hc => h c (List.mem_cons_of_mem a hc)
    simp [List.takeWhile_cons, ha, ih hl]

theorem hexChar_congr (m k : Nat) (h : m % 16 = k % 16) : hexChar m = hexChar k := by
  unfold hexChar
  rw [h]

theorem hexChar_mem (m : Nat) : hexChar m ∈ hexDigitChars := by
  unfold hexChar
  have h : m % 16 < 16 := Nat.mod_lt _ (by norm_num)
  generalize hg : m % 16 = r at h ⊢
  interval_cases r <;> decide

theorem mem_hexWord32 (ch : Char) (n : Nat) (h : ch ∈ hexWord32 n) :
    ch ∈ hexDigitChars := by
  simp only [hexWord32, List.mem_cons, List.not_mem_nil, or_false] at h
  rcases h with rfl | rfl | rfl | rfl | rfl | rfl | rfl | rfl <;> exact hexChar_mem _

theorem hexWord32_eq_bytes (n : Nat) :
    ((word32BytesBE n).map hexByte).flatten = hexWord32 n := by
  simp only [word32BytesBE, hexByte, hexWord32, List.map_cons, List.map_nil,
    List.flatten_cons, List.flatten_nil, List.cons_append, List.nil_append,
    List.append_nil, List.cons.injEq, and_true]
  refine ⟨?_, ?_, ?_, ?_, ?_, ?_, ?_, ?_⟩ <;> (apply hexChar_congr; omega)

/-! ## Claim theorems -/

/-- C1: the spec claims `read(write(p, k)) = p` for every payload and kind.
In `src/myrepo/tinygit.cpp` the stored encoding lacks the NUL separator
(`+ "\0"` appends an empty C string), so for `p = "hello\n"`, `k = "blob"`
read returns the entire decompressed store `"blob 6hello\n"` — header
included — instead of `"hello\n"`; the `src/unnamed/part_000` variant, which
appends `'\0'` as a char, does round-trip the same input. -/
theorem c1_roundtrip_v1_breaks :
    readObjectV1 (writeObjectV1 emptyFS (strBytes "hello\n") (strBytes "blob")).2
        (writeObjectV1 emptyFS (strBytes "hello\n") (strBytes "blob")).1
      = some (storeV1 (strBytes "hello\n") (strBytes "blob")) ∧
    readObjectV1 (writeObjectV1 emptyFS (strBytes "hello\n") (strBytes "blob")).2
        (writeObjectV1 emptyFS (strBytes "hello\n") (strBytes "blob")).1
      ≠ some (strBytes "hello\n") ∧
    readObjectV2 (writeObjectV2 emptyFS (strBytes "hello\n") (strBytes "blob")).2
        (writeObjectV2 emptyFS (strBytes "hello\n") (strBytes "blob")).1
      = some (strBytes "hello\n") :=
  ⟨by decide, by decide, by decide⟩

/-- C2: the spec claims the hashed-and-stored bytes are
`kind ++ " " ++ decimal length ++ NUL ++ payload`.  The
`src/myrepo/tinygit.cpp` encoding contains no NUL at all (its id hashes
`"blob 6hello\n"`, not `"blob 6\0hello\n"`), while the
`src/unnamed/part_000` encoding matches the claim exactly. -/
theorem c2_encoding_v1_lacks_nul :
    storeV1 (strBytes "hello\n") (strBytes "blob") = strBytes "blob 6hello\n" ∧
    (0 : Nat) ∉ storeV1 (strBytes "hello\n") (strBytes "blob") ∧
    storeV2 (strBytes "hello\n") (strBytes "blob")
      = strBytes "blob 6" ++ [0] ++ strBytes "hello\n" ∧
    (writeObjectV1 emptyFS (strBytes "hello\n") (strBytes "blob")).1
      ≠ String.mk (sha1 (storeV2 (strBytes "hello\n") (strBytes "blob"))) ∧
    (writeObjectV2 emptyFS (strBytes "hello\n") (strBytes "blob")).1
      = String.mk (sha1Openssl (storeV2 (strBytes "hello\n") (strBytes "blob"))) :=
  ⟨by decide, by decide, by decide, by decide, by decide⟩

/-- C3: the spec claims `read` signals `NotFound` for an absent object and
`CorruptObject` for decompressed bytes without a NUL, distinguishable from an
empty blob.  The code (`read_object` in `src/unnamed/part_000`) returns the
empty string in all three situations — object absent, stored empty blob, and
NUL-free decompressed bytes — so the three outcomes are indistinguishable. -/
theorem c3_read_collapses_to_empty :
    readObjectV2 emptyFS (writeObjectV2 emptyFS [] (strBytes "blob")).1 = some [] ∧
    readObjectV2 (writeObjectV2 emptyFS [] (strBytes "blob")).2
        (writeObjectV2 emptyFS [] (strBytes "blob")).1 = some [] ∧
    readObjectV2
        (fsWrite emptyFS (readFile (writeObjectV2 emptyFS [] (strBytes "blob")).1)
          (zlibCompress (strBytes "junk")))
        (writeObjectV2 emptyFS [] (strBytes "blob")).1 = some [] :=
  ⟨by decide, by decide, by decide⟩

/-- C4: before any commit the master ref file does not exist and `log`
signals `no commits yet`; after updating the ref with an id `X` (nonempty and
whitespace-free, which every 40-hex-character id is), resolution returns
exactly `X`.  From the combined `main` in `src/unnamed/part_000`. -/
theorem c4_resolve_master :
    resolveMaster none = Except.error RefErr.noCommits ∧
    ∀ (r : MasterRef) (x : String), x ≠ "" →
      (∀ c ∈ x.data, isSpaceChar c = false) →
      resolveMaster (updateMaster r x) = Except.ok x := by
  refine ⟨rfl, ?_⟩
  intro r x hne h
  obtain ⟨l⟩ := x
  match l, hne, h with
  | [], hne, _ => exact absurd rfl hne
  | c :: cs, _, h =>
    have hc : isSpaceChar c = false := h c (List.mem_cons_self c cs)
    have hcs : ∀ d ∈ cs, isSpaceChar d = false :=
      fun d hd => h d (List.mem_cons_of_mem c hd)
    have hdata : (String.mk (c :: cs) ++ "\n").data = c :: (cs ++ ['\n']) := rfl
    have hrest : (c :: (cs ++ ['\n'])).dropWhile isSpaceChar = c :: (cs ++ ['\n']) := by
      simp [List.dropWhile_cons, hc]
    have htok : (c :: (cs ++ ['\n'])).takeWhile (fun d => !(isSpaceChar d)) = c :: cs := by
      simp [List.takeWhile_cons, hc, takeWhile_token cs hcs]
    have hext : extractToken (String.mk (c :: cs) ++ "\n") = some (String.mk (c :: cs)) := by
      simp only [extractToken, hdata, hrest, htok]
      simp
    simp [updateMaster, resolveMaster, hext]

/-- Witness for C4 at a concrete 40-hex id. -/
theorem c4_resolve_master_witness :
    ("ce013625030ba8dba906f756967f9e9ca394464a" : String) ≠ "" ∧
    resolveMaster (updateMaster none "ce013625030ba8dba906f756967f9e9ca394464a")
      = Except.ok "ce013625030ba8dba906f756967f9e9ca394464a" :=
  ⟨by decide, c4_resolve_master.2 none _ (by decide) (by decide)⟩

/-- C5: for every payload and every positive initial buffer guess, the
grow-and-retry decompression loop terminates and returns the full
decompressed bytes, never truncated data. -/
theorem c5_decompression_growth (x : List Nat) (size : Nat) (h : 0 < size) :
    growRetry (zlibCompress x) size = ZResult.ok x := by
  have := growRetryAux_ok (zlibDecode (zlibCompress x)).length (zlibCompress x)
    size h (by omega)
  simpa [growRetry, zlibCompress, zlibDecode] using this

/-- Witness for C5 with a buffer guess smaller than the payload. -/
theorem c5_decompression_growth_witness :
    0 < 1 ∧ growRetry (zlibCompress (strBytes "hello\n")) 1
      = ZResult.ok (strBytes "hello\n") :=
  ⟨by decide, c5_decompression_growth (strBytes "hello\n") 1 (by decide)⟩

/-- C6: write is idempotent and deterministic — writing the same payload and
kind twice returns the same id both times, and after each call the stored
file at that id's path holds the identical compressed encoding. -/
theorem c6_write_idempotent (fs : FS) (data kind : List Nat) :
    (writeObjectV2 fs data kind).1
      = (writeObjectV2 (writeObjectV2 fs data kind).2 data kind).1 ∧
    ((writeObjectV2 fs data kind).2) (readFile (writeObjectV2 fs data kind).1)
      = some (zlibCompress (storeV2 data kind)) ∧
    ((writeObjectV2 (writeObjectV2 fs data kind).2 data kind).2)
        (readFile (writeObjectV2 fs data kind).1)
      = some (zlibCompress (storeV2 data kind)) := by
  refine ⟨rfl, ?_, ?_⟩ <;> simp [writeObjectV2, fsWrite]

/-- C7: the hand-rolled block-based SHA-1 of `src/myrepo/tinygit.cpp` and
the OpenSSL-based `sha1` of `src/unnamed/part_000` agree on every byte
sequence, and the output is always exactly 40 lowercase hexadecimal
characters. -/
theorem c7_hashers_equivalent (data : List Nat) :
    sha1Openssl data = sha1 data ∧ (sha1 data).length = 40 ∧
    ∀ c ∈ sha1 data, c ∈ hexDigitChars := by
  rcases hcore : sha1Core data with ⟨a, b, c, d, e⟩
  refine ⟨?_, ?_, ?_⟩
  · simp only [sha1Openssl, sha1DigestBytes, sha1, hcore, List.map_append,
      List.flatten_append, hexWord32_eq_bytes]
  · simp [sha1, hcore, hexWord32, List.length_append]
  · intro ch hch
    simp only [sha1, hcore, List.mem_append] at hch
    rcases hch with (((h | h) | h) | h) | h <;> exact mem_hexWord32 _ _ h

/-- Witness for C7 at the empty byte sequence. -/
theorem c7_hashers_equivalent_witness :
    sha1Openssl [] = sha1 [] ∧ (sha1 []).length = 40 ∧
    (sha1 []).headD 'z' ∈ hexDigitChars :=
  ⟨(c7_hashers_equivalent []).1, (c7_hashers_equivalent []).2.1,
    (c7_hashers_equivalent []).2.2 ((sha1 []).headD 'z') (by decide)⟩

/-- C8: for a 40-character id the shard directory component is exactly the
first 2 characters, the filename exactly the remaining 38, their
concatenation reconstructs the id (so the id-to-path map is injective), and
`read_object` resolves the path by the same rule `write_object` used. -/
theorem c8_sharding_bijection (id : String) (hlen : id.length = 40) :
    (strTake id 2).length = 2 ∧ (strDrop id 2).length = 38 ∧
    strTake id 2 ++ strDrop id 2 = id ∧
    writeFile id = readFile id ∧
    ∀ idB : String, idB.length = 40 → strTake id 2 = strTake idB 2 →
      strDrop id 2 = strDrop idB 2 → id = idB := by
  obtain ⟨l⟩ := id
  have hl : l.length = 40 := hlen
  refine ⟨?_, ?_, ?_, rfl, ?_⟩
  · show (l.take 2).length = 2
    simp only [List.length_take]
    omega
  · show (l.drop 2).length = 38
    simp only [List.length_drop]
    omega
  · show String.mk (l.take 2) ++ String.mk (l.drop 2) = String.mk l
    rw [strMk_append, List.take_append_drop]
  · intro idB _ h1 h2
    obtain ⟨m⟩ := idB
    have e1 : l.take 2 = m.take 2 := congrArg String.data h1
    have e2 : l.drop 2 = m.drop 2 := congrArg String.data h2
    have hm : l = m := by
      rw [← List.take_append_drop 2 l, e1, e2, List.take_append_drop]
    exact congrArg String.mk hm

/-- Witness for C8 at a concrete 40-hex id. -/
theorem c8_sharding_bijection_witness :
    (strTake "ce013625030ba8dba906f756967f9e9ca394464a" 2).length = 2 ∧
    strTake "ce013625030ba8dba906f756967f9e9ca394464a" 2
        ++ strDrop "ce013625030ba8dba906f756967f9e9ca394464a" 2
      = "ce013625030ba8dba906f756967f9e9ca394464a" ∧
    writeFile "ce013625030ba8dba906f756967f9e9ca394464a"
      = readFile "ce013625030ba8dba906f756967f9e9ca394464a" :=
  ⟨(c8_sharding_bijection _ (by decide)).1,
   (c8_sharding_bijection _ (by decide)).2.2.1,
   (c8_sharding_bijection _ (by decide)).2.2.2.1⟩

/-- C9: the commit payload assembled by the commit branch is exactly
`tree <tree_id>\n author <identity> <time> <tz>\n committer <identity> <time>
<tz>\n blank-line <message>\n` with the source's fixed tree id and identity,
and for message `first` the line after the blank line is exactly `first`. -/
theorem c9_commit_payload_format (t : Nat) (msg : List Char) :
    commitPayload t msg
      = buildCommit msg "dummy_sha".data "me <me@example.com>".data t "+0000".data ∧
    messageLine (commitPayload 1700000000 "first".data) = some "first".data := by
  constructor
  · simp only [commitPayload, buildCommit, List.append_assoc]
    rfl
  · decide

/-- C10: `read_object` in `src/myrepo/tinygit.cpp` requires an identifier of
length at least 2: for any shorter identifier `sha.substr(2)` throws
(`cppSubstrFrom _ 2 = none`), and the log command reaches that state with the
empty identifier when the master ref file is missing. -/
theorem c10_read_requires_two_chars (fs : FS) (sha : String) (h : sha.length < 2) :
    cppSubstrFrom sha 2 = none ∧ readObjectV1 fs sha = none ∧
    logV1 fs none = none := by
  have hsub : cppSubstrFrom sha 2 = none := by
    have hd : sha.data.length < 2 := h
    unfold cppSubstrFrom
    rw [if_neg (by omega)]
  refine ⟨hsub, ?_, ?_⟩
  · unfold readObjectV1
    rw [hsub]
  · rfl

/-- Witness for C10 at a one-character identifier. -/
theorem c10_read_requires_two_chars_witness :
    ("a" : String).length < 2 ∧ cppSubstrFrom "a" 2 = none ∧
    readObjectV1 emptyFS "a" = none ∧ logV1 emptyFS none = none :=
  ⟨by decide, (c10_read_requires_two_chars emptyFS "a" (by decide)).1,
   (c10_read_requires_two_chars emptyFS "a" (by decide)).2.1,
   (c10_read_requires_two_chars emptyFS "a" (by decide)).2.2⟩

end TinyGit
